import Mathlib

/-!
Shallow embedding of the on-chain settlement modules of `proto-pay`:
the batch payout module (`project_x_move::batch`, file `batch.move`) and
the escrow module (`project_x_move::escrow`, file `escrow.move`).

Move `u64` values are modelled as `Nat` together with explicit overflow
checks at every arithmetic step the source performs (Move aborts a
transaction on `u64` overflow).  Addresses and object ids are modelled
as `Nat`.  An aborting Move call is modelled as `Except.error e`: the
whole transaction has no effect, so an error result carries no
transfers, no events and no state change.  Coin values are modelled by
their `u64` value; `coin::split(c, a)` is modelled as subtracting `a`
from the coin's value and aborts (balance `ENotEnough`) when `a`
exceeds the value.
-/

/-- Largest value of a Move `u64`. -/
def U64_MAX : Nat := 18446744073709551615

/-- Fee rate in basis points, `const FEE_BPS: u64 = 50;` in `batch.move`. -/
def FEE_BPS : Nat := 50

/-- Abort code `const ELengthMismatch: u64 = 1;` in `batch.move`. -/
def ELengthMismatch : Nat := 1

/-- Abort code `const EInsufficientBalance: u64 = 2;` in `batch.move`. -/
def EInsufficientBalance : Nat := 2

/-- The ways a `batch_send_token` transaction can abort. -/
inductive BatchAbort : Type
  /-- abort with code `ELengthMismatch` -/
  | lengthMismatch
  /-- abort with code `EInsufficientBalance` -/
  | insufficientBalance
  /-- `u64` arithmetic overflow: a VM-level arithmetic error, not one of
      the module's abort codes -/
  | arithmeticOverflow
  /-- abort inside `coin::split` because the split amount exceeds the
      coin's value (balance `ENotEnough`) -/
  | splitNotEnough
deriving DecidableEq

/-- The module abort code carried by a `BatchAbort`, when it is one of the
module's own codes (`none` for VM-level arithmetic errors and for aborts
raised inside the coin module). -/
def batchAbortCode : BatchAbort → Option Nat
  | .lengthMismatch => some ELengthMismatch
  | .insufficientBalance => some EInsufficientBalance
  | .arithmeticOverflow => none
  | .splitNotEnough => none

/-- Event struct `BatchTokenEvent` of `batch.move` (the phantom coin-type
parameter is erased by the embedding). -/
structure BatchTokenEvent : Type where
  sender : Nat
  recipient_count : Nat
  total_amount : Nat
  fee_amount : Nat
deriving DecidableEq

/-- Result of a successful `batch_send_token` call: the remaining value of
the `payment` coin, the transfers performed in order (destination address,
amount), and the events emitted. -/
structure BatchResult : Type where
  paymentValue : Nat
  transfers : List (Nat × Nat)
  events : List BatchTokenEvent
deriving DecidableEq

/-- The fee amount actually charged by a batch result: the amount of the
first transfer, which `batch_send_token` sends to `config.owner`. -/
def BatchResult.feeCharged (r : BatchResult) : Nat :=
  match r.transfers with
  | (_, f) :: _ => f
  | [] => 0

/-- The summation loop of `batch_send_token` (lines 55-60 of `batch.move`):
`total = total + amounts[i]` over the vector, each `u64` addition aborting
on overflow (`none`). -/
def sumAmountsU64 : List Nat → Nat → Option Nat
  | [], acc => some acc
  | a :: rest, acc =>
      if acc + a ≤ U64_MAX then sumAmountsU64 rest (acc + a) else none

/-- The distribution loop of `batch_send_token` (lines 77-86 of
`batch.move`): for each index in order, split `amounts[i]` out of the
payment coin and transfer it to `recipients[i]`.  Returns the remaining
payment value and the transfer list, or `none` when a split aborts
because the amount exceeds the remaining value. -/
def splitLoop : Nat → List Nat → List Nat → Option (Nat × List (Nat × Nat))
  | v, [], [] => some (v, [])
  | v, r :: rs, a :: rest =>
      if a ≤ v then
        match splitLoop (v - a) rs rest with
        | some (rem, ts) => some (rem, (r, a) :: ts)
        | none => none
      else none
  | _, _, _ => none

/-- Fee computation of `batch_send_token` (lines 63-67 of `batch.move`):
`fee = (total * FEE_BPS) / 10000`, forced up to `1` when the division
rounds to `0` on a positive total.  The `u64` overflow of the
multiplication is checked separately at the call site. -/
def batchFee (total : Nat) : Nat :=
  if total * FEE_BPS / 10000 = 0 ∧ 0 < total then 1 else total * FEE_BPS / 10000

/-- Entry function `batch_send_token` of `batch.move`, embedded over the
payment coin's value.  `configOwner` is `config.owner`; `sender` is
`tx_context::sender(ctx)`.  Mirrors the source statement by statement:
length check, summation loop, fee computation with minimum-fee rule
(each `u64` operation checked for overflow), balance check, fee split
and transfer to the owner, distribution loop, event emission. -/
def batch_send_token (configOwner : Nat) (paymentValue : Nat)
    (recipients : List Nat) (amounts : List Nat) (sender : Nat) :
    Except BatchAbort BatchResult :=
  if recipients.length = amounts.length then
    match sumAmountsU64 amounts 0 with
    | none => .error .arithmeticOverflow
    | some total =>
      if total * FEE_BPS ≤ U64_MAX then
        if total + batchFee total ≤ U64_MAX then
          if total + batchFee total ≤ paymentValue then
            if batchFee total ≤ paymentValue then
              match splitLoop (paymentValue - batchFee total) recipients amounts with
              | some (rem, ts) =>
                  .ok { paymentValue := rem,
                        transfers := (configOwner, batchFee total) :: ts,
                        events := [{ sender := sender,
                                     recipient_count := recipients.length,
                                     total_amount := total,
                                     fee_amount := batchFee total }] }
              | none => .error .splitNotEnough
            else .error .splitNotEnough
          else .error .insufficientBalance
        else .error .arithmeticOverflow
      else .error .arithmeticOverflow
  else .error .lengthMismatch

theorem sumAmountsU64_eq (l : List Nat) :
    ∀ (acc t : Nat), sumAmountsU64 l acc = some t → t = acc + l.sum := by
  induction l with
  | nil =>
      intro acc t h
      simp [sumAmountsU64] at h
      simp [h.symm]
  | cons a rest ih =>
      intro acc t h
      simp only [sumAmountsU64] at h
      by_cases hle : acc + a ≤ U64_MAX
      · rw [if_pos hle] at h
        have := ih (acc + a) t h
        simp [this, List.sum_cons]
        ring
      · rw [if_neg hle] at h
        exact absurd h (by simp)

theorem sumAmountsU64_le (l : List Nat) :
    ∀ (acc t : Nat), sumAmountsU64 l acc = some t → t ≤ U64_MAX ∨ l = [] := by
  induction l with
  | nil => intro acc t _; right; rfl
  | cons a rest ih =>
      intro acc t h
      simp only [sumAmountsU64] at h
      by_cases hle : acc + a ≤ U64_MAX
      · rw [if_pos hle] at h
        rcases ih (acc + a) t h with h1 | h1
        · exact Or.inl h1
        · left
          rw [h1] at h
          simp [sumAmountsU64] at h
          omega
      · rw [if_neg hle] at h
        exact absurd h (by simp)

theorem splitLoop_ok (rs : List Nat) :
    ∀ (amts : List Nat) (v rem : Nat) (ts : List (Nat × Nat)),
    splitLoop v rs amts = some (rem, ts) →
    v = rem + amts.sum ∧ ts = rs.zip amts := by
  induction rs with
  | nil =>
      intro amts v rem ts h
      cases amts with
      | nil =>
          simp [splitLoop] at h
          simp [h.1.symm, h.2.symm]
      | cons a rest => simp [splitLoop] at h
  | cons r rs ih =>
      intro amts v rem ts h
      cases amts with
      | nil => simp [splitLoop] at h
      | cons a rest =>
          simp only [splitLoop] at h
          by_cases hle : a ≤ v
          · rw [if_pos hle] at h
            cases hrec : splitLoop (v - a) rs rest with
            | none => rw [hrec] at h; exact absurd h (by simp)
            | some p =>
                rw [hrec] at h
                obtain ⟨rem0, ts0⟩ := p
                simp at h
                obtain ⟨hrem, hts⟩ := h
                have := ih rest (v - a) rem0 ts0 hrec
                constructor
                · rw [List.sum_cons]
                  omega
                · rw [← hts, this.2, List.zip_cons_cons]
          · rw [if_neg hle] at h
            exact absurd h (by simp)

theorem splitLoop_succeeds (rs : List Nat) :
    ∀ (amts : List Nat) (v : Nat), rs.length = amts.length →
    amts.sum ≤ v →
    splitLoop v rs amts = some (v - amts.sum, rs.zip amts) := by
  induction rs with
  | nil =>
      intro amts v hlen _
      cases amts with
      | nil => simp [splitLoop]
      | cons a rest => simp at hlen
  | cons r rs ih =>
      intro amts v hlen hsum
      cases amts with
      | nil => simp at hlen
      | cons a rest =>
          simp only [List.length_cons, Nat.succ_inj] at hlen
          rw [List.sum_cons] at hsum
          have ha : a ≤ v := le_trans (Nat.le_add_right a rest.sum) hsum
          simp only [splitLoop, if_pos ha]
          rw [ih rest (v - a) hlen (by omega)]
          simp [List.sum_cons]
          omega

theorem batchFee_zero : batchFee 0 = 0 := by
  simp [batchFee]

theorem batchFee_le (total : Nat) (h : 0 < total) : batchFee total ≤ total := by
  have hdiv : total * FEE_BPS / 10000 ≤ total := by
    calc total * FEE_BPS / 10000 ≤ total * FEE_BPS / FEE_BPS :=
          Nat.div_le_div_left (by norm_num [FEE_BPS]) (by norm_num [FEE_BPS])
    _ = total := Nat.mul_div_cancel total (by norm_num [FEE_BPS])
  unfold batchFee
  split
  · omega
  · exact hdiv

theorem batchFee_formula (t : Nat) :
    batchFee t = if t = 0 then 0 else max 1 (t * 50 / 10000) := by
  unfold batchFee FEE_BPS
  rcases Nat.eq_zero_or_pos t with h0 | h0
  · subst h0
    simp
  · have hne : ¬(t = 0) := by omega
    rw [if_neg hne]
    rcases Nat.eq_zero_or_pos (t * 50 / 10000) with hf | hf
    · have hc : t * 50 / 10000 = 0 ∧ 0 < t := ⟨hf, h0⟩
      rw [if_pos hc, hf]
      simp
    · have hc : ¬(t * 50 / 10000 = 0 ∧ 0 < t) := by omega
      rw [if_neg hc, max_eq_right hf]

theorem batch_ok_shape (owner pv : Nat) (rs amts : List Nat) (s : Nat)
    (res : BatchResult) (h : batch_send_token owner pv rs amts s = Except.ok res) :
    rs.length = amts.length ∧
    amts.sum + batchFee amts.sum ≤ pv ∧
    res = { paymentValue := pv - batchFee amts.sum - amts.sum,
            transfers := (owner, batchFee amts.sum) :: rs.zip amts,
            events := [{ sender := s, recipient_count := rs.length,
                         total_amount := amts.sum,
                         fee_amount := batchFee amts.sum }] } := by
  unfold batch_send_token at h
  split at h
  · split at h
    · simp at h
    · rename_i total hs
      have hlen : rs.length = amts.length := by assumption
      have htot : total = amts.sum := by
        have := sumAmountsU64_eq amts 0 total hs
        omega
      subst htot
      split at h
      · split at h
        · split at h
          · split at h
            · have h3 : amts.sum + batchFee amts.sum ≤ pv := by assumption
              rw [splitLoop_succeeds rs amts (pv - batchFee amts.sum) hlen
                    (by omega)] at h
              simp only [Except.ok.injEq] at h
              refine ⟨hlen, h3, ?_⟩
              rw [← h]
            · simp at h
          · simp at h
        · simp at h
      · simp at h
  · simp at h

/-- C1: for every successful `batch_send_token` call, the payment coin's
value is reduced by exactly the sum of the amounts plus the charged fee:
`value_before = value_after + total_amount + fee`. -/
theorem batch_pay_conservation (owner pv : Nat) (rs amts : List Nat) (s : Nat)
    (res : BatchResult) (h : batch_send_token owner pv rs amts s = Except.ok res) :
    pv = res.paymentValue + amts.sum + res.feeCharged := by
  obtain ⟨hlen, hle, hres⟩ := batch_ok_shape owner pv rs amts s res h
  subst hres
  simp [BatchResult.feeCharged]
  omega

/-- Witness for C1 at a concrete input: owner 9, payment value 500,
recipients `[5, 6]`, amounts `[100, 200]`, sender 7. -/
theorem batch_pay_conservation_witness :
    (500 : Nat) =
      (BatchResult.mk 199 [(9, 1), (5, 100), (6, 200)]
          [BatchTokenEvent.mk 7 2 300 1]).paymentValue +
        ([100, 200] : List Nat).sum +
        (BatchResult.mk 199 [(9, 1), (5, 100), (6, 200)]
          [BatchTokenEvent.mk 7 2 300 1]).feeCharged :=
  batch_pay_conservation 9 500 [5, 6] [100, 200] 7
    (BatchResult.mk 199 [(9, 1), (5, 100), (6, 200)] [BatchTokenEvent.mk 7 2 300 1])
    rfl

/-- C2: for every successful `batch_send_token` call, the charged fee is
`0` when the total is `0` and `max 1 (total * 50 / 10000)` when the total
is at least `1`. -/
theorem batch_pay_fee_formula (owner pv : Nat) (rs amts : List Nat) (s : Nat)
    (res : BatchResult) (h : batch_send_token owner pv rs amts s = Except.ok res) :
    res.feeCharged =
      if amts.sum = 0 then 0 else max 1 (amts.sum * 50 / 10000) := by
  obtain ⟨hlen, hle, hres⟩ := batch_ok_shape owner pv rs amts s res h
  subst hres
  show batchFee amts.sum = _
  exact batchFee_formula amts.sum

/-- Witness for C2 at a concrete input: total 300 gives fee
`max 1 (300 * 50 / 10000) = 1`. -/
theorem batch_pay_fee_formula_witness :
    (BatchResult.mk 199 [(9, 1), (5, 100), (6, 200)]
        [BatchTokenEvent.mk 7 2 300 1]).feeCharged =
      if ([100, 200] : List Nat).sum = 0 then 0
      else max 1 (([100, 200] : List Nat).sum * 50 / 10000) :=
  batch_pay_fee_formula 9 500 [5, 6] [100, 200] 7
    (BatchResult.mk 199 [(9, 1), (5, 100), (6, 200)] [BatchTokenEvent.mk 7 2 300 1])
    rfl

/-- C9: every successful `batch_send_token` call performs first a transfer
of the fee to `config.owner` and then, for each index in increasing input
order, a transfer of `amounts[i]` to `recipients[i]`; recipients are not
reordered or deduplicated. -/
theorem batch_pay_transfer_order (owner pv : Nat) (rs amts : List Nat) (s : Nat)
    (res : BatchResult) (h : batch_send_token owner pv rs amts s = Except.ok res) :
    res.transfers = (owner, res.feeCharged) :: rs.zip amts := by
  obtain ⟨hlen, hle, hres⟩ := batch_ok_shape owner pv rs amts s res h
  subst hres
  rfl

/-- Witness for C9 at a concrete input with a duplicated recipient address
`5`: the fee transfer to the owner comes first and address `5` receives two
separate transfers in input order. -/
theorem batch_pay_transfer_order_witness :
    (BatchResult.mk 469 [(9, 1), (5, 10), (5, 20)]
        [BatchTokenEvent.mk 7 2 30 1]).transfers =
      (9, (BatchResult.mk 469 [(9, 1), (5, 10), (5, 20)]
        [BatchTokenEvent.mk 7 2 30 1]).feeCharged) ::
        ([5, 5] : List Nat).zip [10, 20] :=
  batch_pay_transfer_order 9 500 [5, 5] [10, 20] 7
    (BatchResult.mk 469 [(9, 1), (5, 10), (5, 20)] [BatchTokenEvent.mk 7 2 30 1])
    rfl

/-- C7: a `batch_send_token` call whose recipients and amounts vectors have
different lengths aborts with `ELengthMismatch`; the abort happens before
any split, transfer or event, so the error result carries no effect. -/
theorem batch_pay_length_mismatch (owner pv : Nat) (rs amts : List Nat) (s : Nat)
    (h : rs.length ≠ amts.length) :
    batch_send_token owner pv rs amts s = Except.error BatchAbort.lengthMismatch := by
  unfold batch_send_token
  rw [if_neg h]

/-- Witness for C7: one recipient and an empty amounts vector abort with
`ELengthMismatch`. -/
theorem batch_pay_length_mismatch_witness :
    batch_send_token 9 500 [1] [] 7 = Except.error BatchAbort.lengthMismatch :=
  batch_pay_length_mismatch 9 500 [1] [] 7 (by decide)

/-- C8 (amended): with equal-length inputs, when the summation loop and the
fee multiplication do not overflow a `u64` and the payment value is
strictly below `total_amount + fee`, `batch_send_token` aborts with
`EInsufficientBalance`. -/
theorem batch_pay_insufficient (owner pv : Nat) (rs amts : List Nat) (s : Nat)
    (total : Nat) (hlen : rs.length = amts.length)
    (hsum : sumAmountsU64 amts 0 = some total)
    (hmul : total * FEE_BPS ≤ U64_MAX)
    (hlt : pv < total + batchFee total) :
    batch_send_token owner pv rs amts s =
      Except.error BatchAbort.insufficientBalance := by
  have hfee : total + batchFee total ≤ U64_MAX := by
    rcases Nat.eq_zero_or_pos total with h0 | h0
    · subst h0
      simp [batchFee_zero, U64_MAX]
    · have h1 := batchFee_le total h0
      have h2 : total * 2 ≤ total * FEE_BPS :=
        Nat.mul_le_mul_left total (by norm_num [FEE_BPS])
      omega
  unfold batch_send_token
  rw [if_pos hlen, hsum]
  simp only [if_pos hmul, if_pos hfee]
  rw [if_neg (by omega : ¬ (total + batchFee total ≤ pv))]

/-- Witness for C8 (amended), the spec's own example: recipients `[1]`,
amounts `[1]`, payment value `0`: the required amount is `1 + fee(1) = 2`,
so the call aborts with `EInsufficientBalance`. -/
theorem batch_pay_insufficient_witness :
    batch_send_token 9 0 [1] [1] 7 = Except.error BatchAbort.insufficientBalance :=
  batch_pay_insufficient 9 0 [1] [1] 7 1 rfl (by decide) (by decide) (by decide)

/-- C8 counterexample: a concrete equal-length input whose payment value
`0` is strictly below `total_amount + fee`, yet the call does not abort
with `EInsufficientBalance`: the summed amounts reach `2^64 - 1`, the fee
multiplication `total * 50` overflows a `u64`, and the call aborts with a
VM arithmetic error instead. -/
theorem batch_pay_insufficient_cex :
    (0 : Nat) < ([9223372036854775808, 9223372036854775807] : List Nat).sum +
        batchFee ([9223372036854775808, 9223372036854775807] : List Nat).sum ∧
    batch_send_token 9 0 [1, 2] [9223372036854775808, 9223372036854775807] 7 =
      Except.error BatchAbort.arithmeticOverflow ∧
    batch_send_token 9 0 [1, 2] [9223372036854775808, 9223372036854775807] 7 ≠
      Except.error BatchAbort.insufficientBalance := by
  refine ⟨by decide, rfl, ?_⟩
  intro hcontra
  rw [show batch_send_token 9 0 [1, 2] [9223372036854775808, 9223372036854775807] 7 =
        Except.error BatchAbort.arithmeticOverflow from rfl] at hcontra
  injection hcontra with h
  exact absurd h (by decide)

/-- C10: `batch_send_token` uses unchecked `u64` arithmetic.  First part:
when the summed amounts, the product `total * 50`, and `total + fee` all
fit in a `u64`, every abort is `ELengthMismatch` or
`EInsufficientBalance`.  Second part: for every equal-length input whose
summation loop succeeds but whose total makes `total * 50` exceed the
`u64` range, the call aborts with a VM arithmetic error, outside the
module's abort codes. -/
theorem batch_pay_overflow_taxonomy :
    (∀ (owner pv : Nat) (rs amts : List Nat) (s : Nat) (total : Nat),
        sumAmountsU64 amts 0 = some total →
        total * FEE_BPS ≤ U64_MAX →
        total + batchFee total ≤ U64_MAX →
        ∀ e, batch_send_token owner pv rs amts s = Except.error e →
          e = BatchAbort.lengthMismatch ∨ e = BatchAbort.insufficientBalance) ∧
    (∀ (owner pv : Nat) (rs amts : List Nat) (s : Nat) (total : Nat),
        rs.length = amts.length →
        sumAmountsU64 amts 0 = some total →
        U64_MAX < total * FEE_BPS →
        batch_send_token owner pv rs amts s =
          Except.error BatchAbort.arithmeticOverflow) := by
  constructor
  · intro owner pv rs amts s total hsum hmul hadd e h
    by_cases hlen : rs.length = amts.length
    · by_cases hbal : total + batchFee total ≤ pv
      · have htot : total = amts.sum := by
          have := sumAmountsU64_eq amts 0 total hsum
          omega
        have hok : batch_send_token owner pv rs amts s =
            Except.ok { paymentValue := pv - batchFee total - amts.sum,
                        transfers := (owner, batchFee total) :: rs.zip amts,
                        events := [{ sender := s,
                                     recipient_count := rs.length,
                                     total_amount := total,
                                     fee_amount := batchFee total }] } := by
          unfold batch_send_token
          rw [if_pos hlen, hsum]
          simp only [if_pos hmul, if_pos hadd, if_pos hbal,
                     if_pos (show batchFee total ≤ pv by omega)]
          rw [splitLoop_succeeds rs amts (pv - batchFee total) hlen (by omega)]
        rw [hok] at h
        simp at h
      · have := batch_pay_insufficient owner pv rs amts s total hlen hsum hmul
          (by omega)
        rw [this] at h
        injection h with h2
        exact Or.inr h2.symm
    · have := batch_pay_length_mismatch owner pv rs amts s hlen
      rw [this] at h
      injection h with h2
      exact Or.inl h2.symm
  · intro owner pv rs amts s total hlen hsum hmul
    unfold batch_send_token
    rw [if_pos hlen, hsum]
    have hn : ¬ (total * FEE_BPS ≤ U64_MAX) := by omega
    simp only [if_neg hn]

/-- Witness for C10: part one applied at a mismatched-length input whose
abort is `ELengthMismatch`; part two applied at an equal-length input whose
amounts sum to `2^64 - 1`, making the fee multiplication overflow. -/
theorem batch_pay_overflow_taxonomy_witness :
    (BatchAbort.lengthMismatch = BatchAbort.lengthMismatch ∨
       BatchAbort.lengthMismatch = BatchAbort.insufficientBalance) ∧
    batch_send_token 9 0 [3, 4] [9223372036854775808, 9223372036854775807] 7 =
      Except.error BatchAbort.arithmeticOverflow :=
  ⟨batch_pay_overflow_taxonomy.1 9 500 [1] [] 7 0 rfl (by decide) (by decide)
      BatchAbort.lengthMismatch rfl,
   batch_pay_overflow_taxonomy.2 9 0 [3, 4]
      [9223372036854775808, 9223372036854775807] 7 18446744073709551615 rfl rfl
      (by decide)⟩

/-- Abort code `const ENotReadyYet: u64 = 0;` in `escrow.move`. -/
def ENotReadyYet : Nat := 0

/-- Abort code `const ENotRecipient: u64 = 1;` in `escrow.move`. -/
def ENotRecipient : Nat := 1

/-- Abort code `const EInsufficientPayment: u64 = 2;` in `escrow.move`. -/
def EInsufficientPayment : Nat := 2

/-- The abort codes raised by `claim_coin` and `claim_nft`. -/
inductive EscrowAbort : Type
  | notReadyYet
  | notRecipient
  | insufficientPayment
deriving DecidableEq

/-- Numeric abort code of each `EscrowAbort`, as declared in `escrow.move`. -/
def escrowAbortCode : EscrowAbort → Nat
  | .notReadyYet => ENotReadyYet
  | .notRecipient => ENotRecipient
  | .insufficientPayment => EInsufficientPayment

/-- Struct `CoinEscrow<T, PaymentCoin>` of `escrow.move`: `id` is the
record's `UID` as a `Nat`, `balance` the value of the held `Balance<T>`;
the phantom type parameters are erased by the embedding. -/
structure CoinEscrow : Type where
  id : Nat
  balance : Nat
  creator : Nat
  recipient : Nat
  price : Nat
  unlock_time : Nat
deriving DecidableEq

/-- Event struct `CoinClaimEvent` of `escrow.move`. -/
structure CoinClaimEvent : Type where
  escrow_id : Nat
  claimer : Nat
  amount : Nat
  price : Nat
deriving DecidableEq

/-- Effects of a successful `claim_coin` call, in the order the source
performs them: the `paid` split of `price` transferred to the creator, the
remaining payment coin transferred back to the sender as change, the held
balance (as a coin) transferred to the sender, and the emitted events. -/
structure CoinClaimOutcome : Type where
  paidToCreator : Nat × Nat
  changeToSender : Nat × Nat
  productToSender : Nat × Nat
  events : List CoinClaimEvent
deriving DecidableEq

/-- Entry function `claim_coin` of `escrow.move` (lines 100-135), embedded
over the payment coin's value.  The three `assert!` statements are
mirrored in source order: recipient check (`ENotRecipient`), time check
(`ENotReadyYet`), payment check (`EInsufficientPayment`); on success the
record is consumed and the three transfers and the event are produced. -/
def claim_coin (escrow : CoinEscrow) (payment : Nat) (clockMs : Nat)
    (sender : Nat) : Except EscrowAbort CoinClaimOutcome :=
  if sender = escrow.recipient then
    if escrow.unlock_time ≤ clockMs then
      if escrow.price ≤ payment then
        Except.ok { paidToCreator := (escrow.creator, escrow.price),
                    changeToSender := (sender, payment - escrow.price),
                    productToSender := (sender, escrow.balance),
                    events := [{ escrow_id := escrow.id, claimer := sender,
                                 amount := escrow.balance,
                                 price := escrow.price }] }
      else Except.error EscrowAbort.insufficientPayment
    else Except.error EscrowAbort.notReadyYet
  else Except.error EscrowAbort.notRecipient

/-- Struct `NftEscrow<T, PaymentCoin>` of `escrow.move`: `id` is the
record's `UID`, `item` the object id of the held NFT. -/
structure NftEscrow : Type where
  id : Nat
  item : Nat
  creator : Nat
  recipient : Nat
  price : Nat
  unlock_time : Nat
deriving DecidableEq

/-- Event struct `NftClaimEvent` of `escrow.move`. -/
structure NftClaimEvent : Type where
  escrow_id : Nat
  nft_id : Nat
  claimer : Nat
  price : Nat
deriving DecidableEq

/-- Effects of a successful `claim_nft` call, in source order: the `paid`
split of `price` transferred to the creator, the remaining payment coin
transferred back to the sender, the held item (by object id) transferred
to the sender, and the emitted events. -/
structure NftClaimOutcome : Type where
  paidToCreator : Nat × Nat
  changeToSender : Nat × Nat
  itemToSender : Nat × Nat
  events : List NftClaimEvent
deriving DecidableEq

/-- Entry function `claim_nft` of `escrow.move` (lines 182-213), embedded
over the payment coin's value, with the same three checks in source order
as `claim_coin`. -/
def claim_nft (escrow : NftEscrow) (payment : Nat) (clockMs : Nat)
    (sender : Nat) : Except EscrowAbort NftClaimOutcome :=
  if sender = escrow.recipient then
    if escrow.unlock_time ≤ clockMs then
      if escrow.price ≤ payment then
        Except.ok { paidToCreator := (escrow.creator, escrow.price),
                    changeToSender := (sender, payment - escrow.price),
                    itemToSender := (sender, escrow.item),
                    events := [{ escrow_id := escrow.id, nft_id := escrow.item,
                                 claimer := sender, price := escrow.price }] }
      else Except.error EscrowAbort.insufficientPayment
    else Except.error EscrowAbort.notReadyYet
  else Except.error EscrowAbort.notRecipient

/-- How a claim transaction as a whole can fail: the referenced object id
no longer resolves to a live record, or the module aborted. -/
inductive ClaimTxAbort : Type
  | objectNotFound
  | moduleAbort (e : EscrowAbort)
deriving DecidableEq

/-- Modelled from the spec: the Ledger Object Store (the Sui object
runtime, an external collaborator of this repository) resolves a shared
object id to a live record, runs the claim entry function on it, and on
success the consumed record is destroyed (`object::delete`), removing its
id from the store.  Only lookup and delete-on-claim are needed by the
claims. -/
def claimTx {α β : Type} (claimFn : α → Except EscrowAbort β)
    (store : Nat → Option α) (eid : Nat) :
    Except ClaimTxAbort ((Nat → Option α) × β) :=
  match store eid with
  | none => Except.error ClaimTxAbort.objectNotFound
  | some record =>
    match claimFn record with
    | Except.error e => Except.error (ClaimTxAbort.moduleAbort e)
    | Except.ok r => Except.ok (fun i => if i = eid then none else store i, r)

/-- C3: a claim by the correct recipient, at or after the unlock time,
with payment at least the price, succeeds and performs exactly these
effects: `price` units of the payment coin go to the creator, the
remainder of the payment coin returns to the caller as change, and the
escrowed value (the full held balance, or the unique asset) goes to the
caller. -/
theorem claim_success_effects :
    (∀ (e : CoinEscrow) (payment clockMs sender : Nat),
        sender = e.recipient → e.unlock_time ≤ clockMs → e.price ≤ payment →
        claim_coin e payment clockMs sender =
          Except.ok { paidToCreator := (e.creator, e.price),
                      changeToSender := (sender, payment - e.price),
                      productToSender := (sender, e.balance),
                      events := [{ escrow_id := e.id, claimer := sender,
                                   amount := e.balance, price := e.price }] }) ∧
    (∀ (e : NftEscrow) (payment clockMs sender : Nat),
        sender = e.recipient → e.unlock_time ≤ clockMs → e.price ≤ payment →
        claim_nft e payment clockMs sender =
          Except.ok { paidToCreator := (e.creator, e.price),
                      changeToSender := (sender, payment - e.price),
                      itemToSender := (sender, e.item),
                      events := [{ escrow_id := e.id, nft_id := e.item,
                                   claimer := sender, price := e.price }] }) := by
  constructor
  · intro e payment clockMs sender h1 h2 h3
    unfold claim_coin
    rw [if_pos h1, if_pos h2, if_pos h3]
  · intro e payment clockMs sender h1 h2 h3
    unfold claim_nft
    rw [if_pos h1, if_pos h2, if_pos h3]

/-- Witness for C3: a coin escrow holding 1000 units with price 5 claimed
by recipient 2 paying 7 (change 2), and an NFT escrow over item 42
likewise. -/
theorem claim_success_effects_witness :
    claim_coin (CoinEscrow.mk 0 1000 1 2 5 10) 7 10 2 =
      Except.ok (CoinClaimOutcome.mk (1, 5) (2, 2) (2, 1000)
        [CoinClaimEvent.mk 0 2 1000 5]) ∧
    claim_nft (NftEscrow.mk 3 42 1 2 5 10) 7 10 2 =
      Except.ok (NftClaimOutcome.mk (1, 5) (2, 2) (2, 42)
        [NftClaimEvent.mk 3 42 2 5]) :=
  ⟨claim_success_effects.1 (CoinEscrow.mk 0 1000 1 2 5 10) 7 10 2 rfl
      (by decide) (by decide),
   claim_success_effects.2 (NftEscrow.mk 3 42 1 2 5 10) 7 10 2 rfl
      (by decide) (by decide)⟩

/-- C4: a claim attempt whose sender differs from the record's recipient
aborts with `ENotRecipient`, whatever the timestamp and the payment value;
the error result carries no transfers and no events. -/
theorem claim_not_recipient :
    (∀ (e : CoinEscrow) (payment clockMs sender : Nat),
        sender ≠ e.recipient →
        claim_coin e payment clockMs sender =
          Except.error EscrowAbort.notRecipient) ∧
    (∀ (e : NftEscrow) (payment clockMs sender : Nat),
        sender ≠ e.recipient →
        claim_nft e payment clockMs sender =
          Except.error EscrowAbort.notRecipient) := by
  constructor
  · intro e payment clockMs sender h
    unfold claim_coin
    rw [if_neg h]
  · intro e payment clockMs sender h
    unfold claim_nft
    rw [if_neg h]

/-- Witness for C4: a third party (address 3) and even the creator
(address 1) fail with `ENotRecipient`, despite a late timestamp and an
ample payment. -/
theorem claim_not_recipient_witness :
    claim_coin (CoinEscrow.mk 0 1000 1 2 5 10) 999999 999999 3 =
      Except.error EscrowAbort.notRecipient ∧
    claim_nft (NftEscrow.mk 3 42 1 2 5 10) 999999 999999 1 =
      Except.error EscrowAbort.notRecipient :=
  ⟨claim_not_recipient.1 (CoinEscrow.mk 0 1000 1 2 5 10) 999999 999999 3
      (by decide),
   claim_not_recipient.2 (NftEscrow.mk 3 42 1 2 5 10) 999999 999999 1
      (by decide)⟩

/-- C5: a claim by the correct recipient with sufficient payment but a
timestamp strictly before the unlock time aborts with `ENotReadyYet`; and
for a record with `unlock_time = 0` the time check is trivially satisfied:
the result does not depend on the clock and is never `ENotReadyYet`, so
only the authorization and payment checks gate the claim. -/
theorem claim_time_gate :
    (∀ (e : CoinEscrow) (payment clockMs sender : Nat),
        sender = e.recipient → e.price ≤ payment → clockMs < e.unlock_time →
        claim_coin e payment clockMs sender =
          Except.error EscrowAbort.notReadyYet) ∧
    (∀ (e : NftEscrow) (payment clockMs sender : Nat),
        sender = e.recipient → e.price ≤ payment → clockMs < e.unlock_time →
        claim_nft e payment clockMs sender =
          Except.error EscrowAbort.notReadyYet) ∧
    (∀ (e : CoinEscrow) (payment clockMs clockMs2 sender : Nat),
        e.unlock_time = 0 →
        claim_coin e payment clockMs sender =
            claim_coin e payment clockMs2 sender ∧
          claim_coin e payment clockMs sender ≠
            Except.error EscrowAbort.notReadyYet) ∧
    (∀ (e : NftEscrow) (payment clockMs clockMs2 sender : Nat),
        e.unlock_time = 0 →
        claim_nft e payment clockMs sender =
            claim_nft e payment clockMs2 sender ∧
          claim_nft e payment clockMs sender ≠
            Except.error EscrowAbort.notReadyYet) := by
  refine ⟨?_, ?_, ?_, ?_⟩
  · intro e payment clockMs sender h1 h2 h3
    unfold claim_coin
    rw [if_pos h1, if_neg (by omega : ¬ (e.unlock_time ≤ clockMs))]
  · intro e payment clockMs sender h1 h2 h3
    unfold claim_nft
    rw [if_pos h1, if_neg (by omega : ¬ (e.unlock_time ≤ clockMs))]
  · intro e payment clockMs clockMs2 sender he
    constructor
    · unfold claim_coin
      rw [he, if_pos (Nat.zero_le clockMs), if_pos (Nat.zero_le clockMs2)]
    · unfold claim_coin
      rw [he, if_pos (Nat.zero_le clockMs)]
      by_cases hs : sender = e.recipient
      · rw [if_pos hs]
        by_cases hp : e.price ≤ payment
        · rw [if_pos hp]
          intro hcontra
          simp at hcontra
        · rw [if_neg hp]
          intro hcontra
          injection hcontra with h2
          exact absurd h2 (by decide)
      · rw [if_neg hs]
        intro hcontra
        injection hcontra with h2
        exact absurd h2 (by decide)
  · intro e payment clockMs clockMs2 sender he
    constructor
    · unfold claim_nft
      rw [he, if_pos (Nat.zero_le clockMs), if_pos (Nat.zero_le clockMs2)]
    · unfold claim_nft
      rw [he, if_pos (Nat.zero_le clockMs)]
      by_cases hs : sender = e.recipient
      · rw [if_pos hs]
        by_cases hp : e.price ≤ payment
        · rw [if_pos hp]
          intro hcontra
          simp at hcontra
        · rw [if_neg hp]
          intro hcontra
          injection hcontra with h2
          exact absurd h2 (by decide)
      · rw [if_neg hs]
        intro hcontra
        injection hcontra with h2
        exact absurd h2 (by decide)

/-- Witness for C5: a locked record (unlock 100) claimed at time 50 aborts
with `ENotReadyYet` for coin and NFT escrows; a record with unlock time 0
gives the same result at times 0 and 12345 and never `ENotReadyYet`. -/
theorem claim_time_gate_witness :
    claim_coin (CoinEscrow.mk 0 1000 1 2 5 100) 7 50 2 =
      Except.error EscrowAbort.notReadyYet ∧
    claim_nft (NftEscrow.mk 3 42 1 2 5 100) 7 50 2 =
      Except.error EscrowAbort.notReadyYet ∧
    (claim_coin (CoinEscrow.mk 0 1000 1 2 5 0) 7 0 2 =
        claim_coin (CoinEscrow.mk 0 1000 1 2 5 0) 7 12345 2 ∧
      claim_coin (CoinEscrow.mk 0 1000 1 2 5 0) 7 0 2 ≠
        Except.error EscrowAbort.notReadyYet) ∧
    (claim_nft (NftEscrow.mk 3 42 1 2 5 0) 7 0 2 =
        claim_nft (NftEscrow.mk 3 42 1 2 5 0) 7 12345 2 ∧
      claim_nft (NftEscrow.mk 3 42 1 2 5 0) 7 0 2 ≠
        Except.error EscrowAbort.notReadyYet) :=
  ⟨claim_time_gate.1 (CoinEscrow.mk 0 1000 1 2 5 100) 7 50 2 rfl
      (by decide) (by decide),
   claim_time_gate.2.1 (NftEscrow.mk 3 42 1 2 5 100) 7 50 2 rfl
      (by decide) (by decide),
   claim_time_gate.2.2.1 (CoinEscrow.mk 0 1000 1 2 5 0) 7 0 12345 2 rfl,
   claim_time_gate.2.2.2 (NftEscrow.mk 3 42 1 2 5 0) 7 0 12345 2 rfl⟩

theorem claimTx_deletes {α β : Type}
    (claimFn claimFn2 : α → Except EscrowAbort β)
    (store : Nat → Option α) (eid : Nat) (store2 : Nat → Option α) (r : β)
    (h : claimTx claimFn store eid = Except.ok (store2, r)) :
    store2 eid = none ∧
    claimTx claimFn2 store2 eid = Except.error ClaimTxAbort.objectNotFound := by
  unfold claimTx at h
  split at h
  · simp at h
  · split at h
    · simp at h
    · simp only [Except.ok.injEq, Prod.mk.injEq] at h
      obtain ⟨hstore, hr⟩ := h
      have hnone : store2 eid = none := by
        rw [← hstore]
        simp
      refine ⟨hnone, ?_⟩
      unfold claimTx
      rw [hnone]

/-- C6: a successful claim destroys the escrow record: the resulting
store no longer resolves the record's id, so every subsequent claim
transaction against the same id fails with object-not-found; there is no
path that claims a record without destroying it, and no partial claim. -/
theorem claim_single_use :
    (∀ (store : Nat → Option CoinEscrow) (eid p c s : Nat)
        (store2 : Nat → Option CoinEscrow) (r : CoinClaimOutcome),
        claimTx (fun e => claim_coin e p c s) store eid =
          Except.ok (store2, r) →
        store2 eid = none ∧
        ∀ (p2 c2 s2 : Nat),
          claimTx (fun e => claim_coin e p2 c2 s2) store2 eid =
            Except.error ClaimTxAbort.objectNotFound) ∧
    (∀ (store : Nat → Option NftEscrow) (eid p c s : Nat)
        (store2 : Nat → Option NftEscrow) (r : NftClaimOutcome),
        claimTx (fun e => claim_nft e p c s) store eid =
          Except.ok (store2, r) →
        store2 eid = none ∧
        ∀ (p2 c2 s2 : Nat),
          claimTx (fun e => claim_nft e p2 c2 s2) store2 eid =
            Except.error ClaimTxAbort.objectNotFound) := by
  constructor
  · intro store eid p c s store2 r h
    constructor
    · exact (claimTx_deletes (fun e => claim_coin e p c s)
        (fun e => claim_coin e p c s) store eid store2 r h).1
    · intro p2 c2 s2
      exact (claimTx_deletes (fun e => claim_coin e p c s)
        (fun e => claim_coin e p2 c2 s2) store eid store2 r h).2
  · intro store eid p c s store2 r h
    constructor
    · exact (claimTx_deletes (fun e => claim_nft e p c s)
        (fun e => claim_nft e p c s) store eid store2 r h).1
    · intro p2 c2 s2
      exact (claimTx_deletes (fun e => claim_nft e p c s)
        (fun e => claim_nft e p2 c2 s2) store eid store2 r h).2

/-- Concrete one-record store used by the witness of the single-claim
theorem: id 0 holds a coin escrow of 1000 units, creator 1, recipient 2,
price 0, no time lock. -/
def coinStoreBefore : Nat → Option CoinEscrow :=
  fun i => if i = 0 then some (CoinEscrow.mk 0 1000 1 2 0 0) else none

/-- The store after the witness claim: id 0 is deleted. -/
def coinStoreAfter : Nat → Option CoinEscrow :=
  fun i => if i = 0 then none else coinStoreBefore i

/-- Witness for C6: after recipient 2 successfully claims record 0 from
`coinStoreBefore`, the id no longer resolves and a repeat claim fails with
object-not-found. -/
theorem claim_single_use_witness :
    coinStoreAfter 0 = none ∧
    claimTx (fun e => claim_coin e 0 0 2) coinStoreAfter 0 =
      Except.error ClaimTxAbort.objectNotFound := by
  have h := claim_single_use.1 coinStoreBefore 0 0 0 2 coinStoreAfter
      (CoinClaimOutcome.mk (1, 0) (2, 0) (2, 1000) [CoinClaimEvent.mk 0 2 1000 0])
      rfl
  exact ⟨h.1, h.2 0 0 2⟩
